import Mathlib

/-!
Shallow embedding of the GraphCDN caching layer: the header-policy
helpers of src/utils.ts and the request handler of
src/routes/graphql.ts.  External effects (GraphQL parsing, schema
retrieval, the key-value store, the origin fetch, SHA-256) are modelled
as inputs in an environment record; the handler itself is a pure
function from request and environment to an outcome together with the
store effects it performed.
-/

/-- Association-list lookup, first binding wins; models lookup in a JS
header map (header names are taken to be lower-case, as the source
consistently uses lower-case names). -/
def getHeader : List (String × String) → String → Option String
  | [], _ => none
  | (k, v) :: rest, key => if k = key then some v else getHeader rest key

/-- Remove every binding of a key. -/
def eraseKey : List (String × String) → String → List (String × String)
  | [], _ => []
  | (k, v) :: rest, key =>
    if k = key then eraseKey rest key else (k, v) :: eraseKey rest key

/-- Overwrite a header binding; models both JS object-spread precedence
(a later duplicate key wins) and headers.set.  Only the induced mapping
matters to the handler, not the binding order. -/
def setHeader (hs : List (String × String)) (key v : String) : List (String × String) :=
  (key, v) :: eraseKey hs key

/-- Spread-merge: apply each binding of the override list over the base
map, later bindings winning, as JS object spread does. -/
def mergeSpread (base over : List (String × String)) : List (String × String) :=
  over.foldl (fun acc p => setHeader acc p.1 p.2) base

/-- Boolean test that the first list is an initial segment of the second. -/
def listIsPref : List Char → List Char → Bool
  | [], _ => true
  | _ :: _, [] => false
  | p :: ps, c :: cs => p == c && listIsPref ps cs

/-- Boolean substring test on character lists; models both
String.indexOf being a hit and a regex literal-substring match. -/
def listHasSub : List Char → List Char → Bool
  | pat, [] => listIsPref pat []
  | pat, c :: cs => listIsPref pat (c :: cs) || listHasSub pat cs

/-- Lower-case a string character by character; models the i flag of the
regexes in src/utils.ts (their patterns are already lower-case). -/
def lowerStr (s : String) : String := String.mk (s.toList.map Char.toLower)

/-- An HTTP response from the origin: status plus header map.
Models the Response values consumed by src/utils.ts. -/
structure OriginResponse where
  status : Nat
  headers : List (String × String)

/-- Embedding of isResponseCachable from src/utils.ts lines 32 to 42:
false on status 206, false when the vary header contains a star, false
when cache-control matches no-cache or no-store case-insensitively,
true otherwise. -/
def isResponseCachable (res : OriginResponse) : Bool :=
  if res.status == 206 then false
  else
    let vary := (getHeader res.headers "vary").getD ""
    if listHasSub "*".toList vary.toList then false
    else
      let ccontrol := (getHeader res.headers "cache-control").getD ""
      if listHasSub "no-cache".toList (lowerStr ccontrol).toList ||
          listHasSub "no-store".toList (lowerStr ccontrol).toList then false
      else true

/-- Reads the maximal leading digit run of a character list, returning
the run and the remainder; models the greedy digit group of the regex
in parseMaxAge. -/
def takeDigits : List Char → List Char × List Char
  | [] => ([], [])
  | c :: cs =>
    if c.isDigit then
      let p := takeDigits cs
      (c :: p.1, p.2)
    else ([], c :: cs)

/-- The literal character list of the pattern max-age=. -/
def maxAgePat : List Char := "max-age=".toList

/-- Strip an expected initial segment, returning the remainder on success. -/
def stripPref : List Char → List Char → Option (List Char)
  | [], l => some l
  | _ :: _, [] => none
  | p :: ps, c :: cs => if p = c then stripPref ps cs else none

/-- Decimal value of a digit run, most significant first; models
parseInt on the captured group (taken exact, as the source never feeds
it runs long enough for float trouble in practice). -/
def charsToNat (l : List Char) : Nat :=
  l.foldl (fun acc c => acc * 10 + (c.toNat - 48)) 0

/-- Leftmost-match scan for the regex max-age= followed by one or more
digits: at each start position try the literal pattern and then a
nonempty digit run, else advance one character, exactly as a regex
engine scans for the leftmost match. -/
def scanMaxAge : List Char → Option Nat
  | [] => none
  | c :: cs =>
    match stripPref maxAgePat (c :: cs) with
    | some rest =>
      match takeDigits rest with
      | (d :: ds, _) => some (charsToNat (d :: ds))
      | ([], _) => scanMaxAge cs
    | none => scanMaxAge cs

/-- Embedding of parseMaxAge from src/utils.ts lines 27 to 30: the
integer captured by the first match of the max-age regex, or the
sentinel -1 when there is no match. -/
def parseMaxAge (s : String) : Int :=
  match scanMaxAge s.toList with
  | some n => (n : Int)
  | none => -1

/-- The MISS constant of the CacheHitHeader enum in src/utils.ts. -/
def CacheHitHeader.MISS : String := "MISS"

/-- The HIT constant of the CacheHitHeader enum in src/utils.ts. -/
def CacheHitHeader.HIT : String := "HIT"

/-- The PASS constant of the CacheHitHeader enum in src/utils.ts. -/
def CacheHitHeader.PASS : String := "PASS"

/-- The ERROR constant of the CacheHitHeader enum in src/utils.ts. -/
def CacheHitHeader.ERROR : String := "ERROR"

/-- A cached entry as stored by the QueryCache store: body plus the
serialized header snapshot. -/
structure CachedValue where
  body : String
  headers : List (String × String)

/-- Metadata stored next to a cached entry. -/
structure CacheMetadata where
  createdAt : Int
  expirationTtl : Int

/-- The parts of the incoming request the handler reads: the query
field of the JSON body (none models an absent field) and the
authorization header (none models an absent header). -/
structure Request where
  bodyQuery : Option String
  authHeader : Option String

/-- Outcomes of the external calls the handler makes, fixed up front so
the handler is a pure function: whether parse at line 43 succeeds,
whether the try block of lines 48 to 60 succeeds, and the results it
would produce; the find result; the origin response and its decoded
JSON body; the clock; the configured default TTL; and the SHA256
function. -/
structure Env where
  dateStr : String
  parseOk : Bool
  classifyOk : Bool
  hasPrivateTypes : Bool
  isMutationRequest : Bool
  content : String
  findValue : Option CachedValue
  findMeta : Option CacheMetadata
  originResponse : OriginResponse
  originResults : String
  now : Int
  defaultMaxAgeInSeconds : Int
  hash : String → String

/-- What the handler hands back: a response (status, headers, body), or
an exception escaping the handler. -/
inductive Outcome where
  | response (status : Nat) (headers : List (String × String)) (body : String)
  | thrown

/-- The externally visible store and transport effects of one request:
the key passed to find if find was called, whether the origin was
fetched, and the key and ttl passed to save if save was called. -/
structure Effects where
  findKey : Option String
  fetched : Bool
  saveCall : Option (String × Int)

/-- Math.round of diff over 1000 for an integer diff: JS rounds half
toward positive infinity, so this is the floor of diff/1000 + 1/2. -/
def jsRoundDiv1000 (diff : Int) : Int := Int.fdiv (diff + 500) 1000

/-- The defaultResponseHeaders record of graphql.ts lines 35 to 41. -/
def defaultResponseHeaders (dateStr : String) : List (String × String) :=
  [("content-type", "application/json"),
   ("date", dateStr),
   ("access-control-max-age", "300"),
   ("x-cache", CacheHitHeader.MISS),
   ("gcdn-cache", CacheHitHeader.MISS)]

/-- The content-type check of graphql.ts line 132: the origin
content-type header exists and includes application/json. -/
def respIsJson (r : OriginResponse) : Bool :=
  match getHeader r.headers "content-type" with
  | some ct => listHasSub "application/json".toList ct.toList
  | none => false

/-- The origin-fetch phase of the handler, graphql.ts lines 120 to 206:
fetch, cacheability decision, JSON check, TTL selection, store, and
response assembly.  The response body decode is assumed to succeed when
the content type is JSON (env.originResults holds the re-serialized
body). -/
def originPhase (env : Env) (querySignature : String) (isPrivateAndCacheable : Bool)
    (findKey : Option String) : Outcome × Effects :=
  let response := env.originResponse
  let isCacheable :=
    (!env.isMutationRequest && isResponseCachable response) || isPrivateAndCacheable
  if respIsJson response then
    let results := env.originResults
    let maxAgeHeaderValue := getHeader response.headers "cache-control"
    if isCacheable then
      let maxAge :=
        match maxAgeHeaderValue with
        | some v =>
          if v = "" then env.defaultMaxAgeInSeconds
          else
            let parsedMaxAge := parseMaxAge v
            if parsedMaxAge > -1 then parsedMaxAge else env.defaultMaxAgeInSeconds
        | none => env.defaultMaxAgeInSeconds
      let hs := mergeSpread response.headers (defaultResponseHeaders env.dateStr)
      let cc :=
        (if isPrivateAndCacheable then "private" else "public") ++
          ", max-age=" ++ toString maxAge ++ ", stale-while-revalidate=" ++ toString maxAge
      let hs := setHeader hs "cache-control" cc
      let hs := setHeader hs "gcdn-cache" CacheHitHeader.PASS
      (Outcome.response 200 hs results, ⟨findKey, true, some (querySignature, maxAge)⟩)
    else
      (Outcome.response 200
        (mergeSpread response.headers
          (defaultResponseHeaders env.dateStr ++ [("gcdn-cache", CacheHitHeader.PASS)]))
        results,
       ⟨findKey, true, none⟩)
  else
    (Outcome.response 415
      (mergeSpread (defaultResponseHeaders env.dateStr)
        [("gcdn-cache", CacheHitHeader.PASS)])
      "unsupported content-type",
     ⟨findKey, true, none⟩)

/-- Embedding of the graphql handler, graphql.ts lines 26 to 207.
A falsy query field returns 400 with no extra headers (line 30); a
parse failure at line 43 is outside the try block and escapes the
handler; a failure inside the try block returns 400 with gcdn-cache
ERROR and x-cache HIT (lines 61 to 69); otherwise the signature is
derived (lines 71 to 83), the cache is consulted for non-mutations
(lines 88 to 115), and misses fall through to the origin phase. -/
def graphql (req : Request) (env : Env) : Outcome × Effects :=
  if req.bodyQuery.getD "" = "" then
    (Outcome.response 400 [] "Request has no query field.", ⟨none, false, none⟩)
  else if env.parseOk = false then
    (Outcome.thrown, ⟨none, false, none⟩)
  else if env.classifyOk = false then
    (Outcome.response 400
      (mergeSpread (defaultResponseHeaders env.dateStr)
        [("gcdn-cache", CacheHitHeader.ERROR), ("x-cache", CacheHitHeader.HIT)])
      "classification error",
     ⟨none, false, none⟩)
  else
    let authHeader := req.authHeader.getD ""
    let isPrivateAndCacheable := !env.isMutationRequest && env.hasPrivateTypes
    let querySignature :=
      if isPrivateAndCacheable then env.hash (authHeader ++ env.content)
      else if env.isMutationRequest = false then env.hash env.content
      else ""
    if env.isMutationRequest = false then
      match env.findValue with
      | some value =>
        let hs := mergeSpread value.headers (defaultResponseHeaders env.dateStr)
        let hs :=
          match env.findMeta with
          | some md =>
            let age := jsRoundDiv1000 (env.now - md.createdAt)
            setHeader hs "age"
              (toString (if age > md.expirationTtl then md.expirationTtl else age))
          | none => hs
        let hs := setHeader hs "gcdn-cache" CacheHitHeader.HIT
        let hs := setHeader hs "x-cache" CacheHitHeader.HIT
        (Outcome.response 200 hs value.body, ⟨some querySignature, false, none⟩)
      | none =>
        originPhase env querySignature isPrivateAndCacheable (some querySignature)
    else
      originPhase env querySignature isPrivateAndCacheable none

/-- Status of an outcome, none when the handler threw. -/
def outcomeStatus : Outcome → Option Nat
  | .response st _ _ => some st
  | .thrown => none

/-- Header of an outcome, none when the handler threw. -/
def outcomeHeader : Outcome → String → Option String
  | .response _ hs _, k => getHeader hs k
  | .thrown, _ => none

/-- Every cache-store key one run touches, via find or save. -/
def usedKeys (e : Effects) : List String :=
  (match e.findKey with | some k => [k] | none => []) ++
  (match e.saveCall with | some kt => [kt.1] | none => [])

/-- Spec-side restatement of the cacheability policy, written from the
words of the claim: not partial content, no star in vary, no no-cache
or no-store directive. -/
def isCacheableSpec (res : OriginResponse) : Bool :=
  !(res.status == 206) &&
  !(listHasSub "*".toList ((getHeader res.headers "vary").getD "").toList) &&
  !(listHasSub "no-cache".toList
      (lowerStr ((getHeader res.headers "cache-control").getD "")).toList ||
    listHasSub "no-store".toList
      (lowerStr ((getHeader res.headers "cache-control").getD "")).toList)

/-- Spec-side TTL choice: the parseable max-age of the origin when the
parse yields more than -1, the configured default otherwise. -/
def specMaxAge (r : OriginResponse) (dflt : Int) : Int :=
  if parseMaxAge ((getHeader r.headers "cache-control").getD "") > -1 then
    parseMaxAge ((getHeader r.headers "cache-control").getD "")
  else dflt

/-- A max-age match exists in a string: some occurrence of the literal
pattern is followed by at least one digit. -/
def maxAgeMatchP (s : String) : Prop :=
  ∃ a c r, s.toList = a ++ maxAgePat ++ c :: r ∧ c.isDigit = true

/-- A concrete injective-looking stand-in for SHA256 used by witnesses. -/
def hash0 : String → String := fun s => "sha(" ++ s ++ ")"

/-- Witness request: plain public query. -/
def reqPub : Request := ⟨some "{ a }", none⟩

/-- Witness request: private query with identity token A. -/
def reqPrivA : Request := ⟨some "{ me }", some "tokA"⟩

/-- Witness request: private query with identity token B. -/
def reqPrivB : Request := ⟨some "{ me }", some "tokB"⟩

/-- Witness request: a mutation. -/
def reqMut : Request := ⟨some "mutation { x }", none⟩

/-- Witness request: body without a query field. -/
def reqNoQuery : Request := ⟨none, none⟩

/-- Witness request: malformed query text. -/
def reqBad : Request := ⟨some "query (", none⟩

/-- Witness environment: public non-mutation, cache miss, JSON origin. -/
def envPub : Env :=
  ⟨"d", true, true, false, false, "{a}", none, none,
   ⟨200, [("content-type", "application/json")]⟩, "{}", 5000, 900, hash0⟩

/-- Witness environment: mutation request. -/
def envMut : Env :=
  ⟨"d", true, true, false, true, "{m}", none, none,
   ⟨200, [("content-type", "application/json")]⟩, "{}", 5000, 900, hash0⟩

/-- Witness environment: private non-mutation whose origin even says
no-store. -/
def envPriv : Env :=
  ⟨"d", true, true, true, false, "{me}", none, none,
   ⟨200, [("content-type", "application/json"), ("cache-control", "no-store")]⟩,
   "{}", 5000, 900, hash0⟩

/-- Witness environment: cache hit with metadata. -/
def envHit : Env :=
  ⟨"d", true, true, false, false, "{a}",
   some ⟨"{cached}", [("content-type", "application/json")]⟩, some ⟨0, 60⟩,
   ⟨200, [("content-type", "application/json")]⟩, "{}", 5000, 900, hash0⟩

/-- Witness environment: origin supplies a parseable max-age. -/
def envMaxAge : Env :=
  ⟨"d", true, true, false, false, "{a}", none, none,
   ⟨200, [("content-type", "application/json"),
          ("cache-control", "public, max-age=120")]⟩,
   "{}", 5000, 900, hash0⟩

/-- Witness environment: the classification phase throws. -/
def envClassErr : Env :=
  ⟨"d", true, false, false, false, "{a}", none, none,
   ⟨200, [("content-type", "application/json")]⟩, "{}", 5000, 900, hash0⟩

/-- Witness environment: parse at line 43 throws. -/
def envParseErr : Env :=
  ⟨"d", false, true, false, false, "{a}", none, none,
   ⟨200, [("content-type", "application/json")]⟩, "{}", 5000, 900, hash0⟩

theorem getHeader_eraseKey_ne (hs : List (String × String)) (k k2 : String)
    (h : k ≠ k2) : getHeader (eraseKey hs k) k2 = getHeader hs k2 := by
  induction hs with
  | nil => rfl
  | cons p rest ih =>
    obtain ⟨k0, v0⟩ := p
    by_cases hk : k0 = k
    · subst hk
      simp [eraseKey, getHeader, h, ih]
    · simp only [eraseKey, if_neg hk, getHeader]
      by_cases hk2 : k0 = k2
      · simp [hk2]
      · simp [hk2, ih]

theorem getHeader_set_self (hs : List (String × String)) (k v : String) :
    getHeader (setHeader hs k v) k = some v := by
  simp [setHeader, getHeader]

theorem getHeader_set_ne (hs : List (String × String)) (k v k2 : String)
    (h : k ≠ k2) : getHeader (setHeader hs k v) k2 = getHeader hs k2 := by
  simp [setHeader, getHeader, h, getHeader_eraseKey_ne hs k k2 h]

/-- Helper: the origin phase reports exactly the find key it was handed. -/
theorem originPhase_findKey (env : Env) (qs : String) (priv : Bool) (fk : Option String) :
    (originPhase env qs priv fk).2.findKey = fk := by
  unfold originPhase
  by_cases hj : respIsJson env.originResponse <;> simp [hj]
  split <;> simp_all

/-- Helper: any save performed by the origin phase uses the derived signature. -/
theorem originPhase_saveKey (env : Env) (qs : String) (priv : Bool) (fk : Option String)
    (k : String) (t : Int) :
    (originPhase env qs priv fk).2.saveCall = some (k, t) → k = qs := by
  unfold originPhase
  by_cases hj : respIsJson env.originResponse <;> simp [hj]
  split <;> simp_all

/-- Helper: under a mutation the origin phase never saves and marks gcdn-cache PASS. -/
theorem originPhase_mutation (env : Env) (qs : String) (fk : Option String)
    (hm : env.isMutationRequest = true) :
    (originPhase env qs false fk).2.saveCall = none ∧
    outcomeHeader (originPhase env qs false fk).1 "gcdn-cache" = some CacheHitHeader.PASS := by
  unfold originPhase
  by_cases hj : respIsJson env.originResponse <;>
    simp [hj, hm, outcomeHeader, mergeSpread, defaultResponseHeaders, getHeader_set_self, getHeader_set_ne]

/-- C4: for every request classified as a mutation (parse and classification
succeeded), no cache lookup and no cache store call is performed, and the
gcdn-cache header of the returned response is PASS; repetition of the same
mutation is captured by quantifying over every store state in the
environment. -/
theorem mutation_passthrough (req : Request) (env : Env)
    (hq : req.bodyQuery.getD "" ≠ "") (hp : env.parseOk = true)
    (hc : env.classifyOk = true) (hm : env.isMutationRequest = true) :
    (graphql req env).2.findKey = none ∧ (graphql req env).2.saveCall = none ∧
    outcomeHeader (graphql req env).1 "gcdn-cache" = some CacheHitHeader.PASS := by
  unfold graphql
  rw [if_neg hq, if_neg (by simp [hp]), if_neg (by simp [hc])]
  simp only [hm, Bool.not_true, Bool.false_and, Bool.false_eq_true, if_false, reduceIte]
  exact ⟨originPhase_findKey env "" false none,
    (originPhase_mutation env "" none hm).1, (originPhase_mutation env "" none hm).2⟩

/-- Helper: on a JSON origin response, a save happens exactly when the cacheability decision holds. -/
theorem originPhase_save_isSome (env : Env) (qs : String) (priv : Bool) (fk : Option String)
    (hjson : respIsJson env.originResponse = true) :
    (originPhase env qs priv fk).2.saveCall.isSome =
      ((!env.isMutationRequest && isResponseCachable env.originResponse) || priv) := by
  unfold originPhase
  simp [hjson]
  split <;> simp_all

/-- C1: on a miss whose origin response is JSON, a non-mutation response is
stored if and only if isResponseCachable holds of the origin response or the
operation touches a private type (so a private response is stored even when
the origin forbids caching), and a mutation is never stored. -/
theorem cache_store_decision (req : Request) (env : Env)
    (hq : req.bodyQuery.getD "" ≠ "") (hp : env.parseOk = true)
    (hc : env.classifyOk = true) (hmiss : env.findValue = none)
    (hjson : respIsJson env.originResponse = true) :
    (env.isMutationRequest = false →
      (graphql req env).2.saveCall.isSome =
        (isResponseCachable env.originResponse || env.hasPrivateTypes)) ∧
    (env.isMutationRequest = true → (graphql req env).2.saveCall = none) := by
  constructor
  · intro hm
    unfold graphql
    rw [if_neg hq, if_neg (by simp [hp]), if_neg (by simp [hc])]
    simp only [hm, Bool.not_false, Bool.true_and, reduceIte, hmiss]
    rw [originPhase_save_isSome _ _ _ _ hjson, hm]
    simp
  · intro hm
    unfold graphql
    rw [if_neg hq, if_neg (by simp [hp]), if_neg (by simp [hc])]
    simp only [hm, Bool.not_true, Bool.false_and, Bool.false_eq_true, if_false, reduceIte]
    exact (originPhase_mutation env "" none hm).1

/-- C2: for a non-mutation the find key is the hash of the identity token
concatenated with the normalized query when a private type is touched, and
the hash of the normalized query alone otherwise; an absent authorization
credential contributes the empty token and still yields a valid key; any
save uses the same key; for a mutation no key is derived and neither find
nor save is called. -/
theorem query_signature_derivation (req : Request) (env : Env)
    (hq : req.bodyQuery.getD "" ≠ "") (hp : env.parseOk = true)
    (hc : env.classifyOk = true) :
    (env.isMutationRequest = false →
      (graphql req env).2.findKey =
        some (if env.hasPrivateTypes then env.hash (req.authHeader.getD "" ++ env.content)
              else env.hash env.content) ∧
      (∀ k t, (graphql req env).2.saveCall = some (k, t) →
        (graphql req env).2.findKey = some k)) ∧
    (env.isMutationRequest = true →
      (graphql req env).2.findKey = none ∧ (graphql req env).2.saveCall = none) := by
  constructor
  · intro hm
    unfold graphql
    rw [if_neg hq, if_neg (by simp [hp]), if_neg (by simp [hc])]
    simp only [hm, Bool.not_false, Bool.true_and, reduceIte]
    cases hfv : env.findValue with
    | none =>
      refine ⟨originPhase_findKey _ _ _ _, ?_⟩
      intro k t hsave
      have hk := originPhase_saveKey _ _ _ _ _ _ hsave
      rw [originPhase_findKey, hk]
    | some v =>
      exact ⟨rfl, by intro k t hsave; simp [Effects.saveCall] at hsave⟩
  · intro hm
    unfold graphql
    rw [if_neg hq, if_neg (by simp [hp]), if_neg (by simp [hc])]
    simp only [hm, Bool.not_true, Bool.false_and, Bool.false_eq_true, if_false, reduceIte]
    exact ⟨originPhase_findKey env "" false none, (originPhase_mutation env "" none hm).1⟩

/-- Helper: every store key the origin phase touches is the derived signature. -/
theorem originPhase_usedKeys_self (env : Env) (qs : String) (priv : Bool) :
    ∀ k ∈ usedKeys (originPhase env qs priv (some qs)).2, k = qs := by
  intro k hk
  unfold originPhase at hk
  by_cases hj : respIsJson env.originResponse
  · simp only [hj, if_true] at hk
    split at hk <;> simp [usedKeys] at hk <;> simp_all
  · simp [hj, usedKeys] at hk
    exact hk

/-- Helper: the find key of a non-mutation run, by privacy classification. -/
theorem graphql_findKey_nonmut (req : Request) (env : Env)
    (hq : req.bodyQuery.getD "" ≠ "") (hp : env.parseOk = true)
    (hc : env.classifyOk = true) (hm : env.isMutationRequest = false) :
    (graphql req env).2.findKey =
      some (if env.hasPrivateTypes then env.hash (req.authHeader.getD "" ++ env.content)
            else env.hash env.content) := by
  unfold graphql
  rw [if_neg hq, if_neg (by simp [hp]), if_neg (by simp [hc])]
  simp only [hm, Bool.not_false, Bool.true_and, reduceIte]
  cases hfv : env.findValue with
  | none => exact originPhase_findKey _ _ _ _
  | some v => rfl

/-- Helper: under private classification every key a run touches is the identity-salted hash. -/
theorem graphql_keys_private (req : Request) (env : Env)
    (hq : req.bodyQuery.getD "" ≠ "") (hp : env.parseOk = true)
    (hc : env.classifyOk = true) (hm : env.isMutationRequest = false)
    (hpriv : env.hasPrivateTypes = true) :
    ∀ k ∈ usedKeys (graphql req env).2,
      k = env.hash (req.authHeader.getD "" ++ env.content) := by
  intro k hk
  unfold graphql at hk
  rw [if_neg hq, if_neg (by simp [hp]), if_neg (by simp [hc])] at hk
  simp only [hm, hpriv, Bool.not_false, Bool.true_and, Bool.and_self, reduceIte] at hk
  cases hfv : env.findValue with
  | none =>
    rw [hfv] at hk
    exact originPhase_usedKeys_self _ _ _ k hk
  | some v =>
    rw [hfv] at hk
    simp [usedKeys] at hk
    exact hk

/-- C3: two non-mutation requests over the same normalized private query
with distinct identity tokens, under the hypothesis that the hash separates
the two concatenated inputs, derive distinct signatures, and no key used by
one run for find or save equals any key used by the other run. -/
theorem privacy_isolation (req1 req2 : Request) (env1 env2 : Env)
    (hq1 : req1.bodyQuery.getD "" ≠ "") (hp1 : env1.parseOk = true)
    (hc1 : env1.classifyOk = true) (hm1 : env1.isMutationRequest = false)
    (hpriv1 : env1.hasPrivateTypes = true)
    (hq2 : req2.bodyQuery.getD "" ≠ "") (hp2 : env2.parseOk = true)
    (hc2 : env2.classifyOk = true) (hm2 : env2.isMutationRequest = false)
    (hpriv2 : env2.hasPrivateTypes = true)
    (hcontent : env1.content = env2.content)
    (hhash : env1.hash = env2.hash)
    (htok : req1.authHeader.getD "" ≠ req2.authHeader.getD "")
    (hdiff : env1.hash (req1.authHeader.getD "" ++ env1.content) ≠
             env2.hash (req2.authHeader.getD "" ++ env2.content)) :
    (graphql req1 env1).2.findKey =
      some (env1.hash (req1.authHeader.getD "" ++ env1.content)) ∧
    (graphql req2 env2).2.findKey =
      some (env2.hash (req2.authHeader.getD "" ++ env2.content)) ∧
    (graphql req1 env1).2.findKey ≠ (graphql req2 env2).2.findKey ∧
    (∀ k1 ∈ usedKeys (graphql req1 env1).2,
      ∀ k2 ∈ usedKeys (graphql req2 env2).2, k1 ≠ k2) := by
  have h1 := graphql_findKey_nonmut req1 env1 hq1 hp1 hc1 hm1
  have h2 := graphql_findKey_nonmut req2 env2 hq2 hp2 hc2 hm2
  rw [hpriv1] at h1
  rw [hpriv2] at h2
  simp only [if_true] at h1 h2
  refine ⟨h1, h2, ?_, ?_⟩
  · rw [h1, h2]
    simp [hdiff]
  · intro k1 hk1 k2 hk2
    rw [graphql_keys_private req1 env1 hq1 hp1 hc1 hm1 hpriv1 k1 hk1,
        graphql_keys_private req2 env2 hq2 hp2 hc2 hm2 hpriv2 k2 hk2]
    exact hdiff

/-- Helper: the empty header value has no max-age match. -/
theorem parseMaxAge_empty : parseMaxAge "" = -1 := rfl

/-- Helper: the capping conditional of the age computation is a minimum. -/
theorem ite_gt_min (a t : Int) : (if a > t then t else a) = min a t := by
  rcases le_or_lt a t with h | h
  · rw [if_neg (not_lt.2 h), min_eq_left h]
  · rw [if_pos h, min_eq_right h.le]

/-- Helper: on a cacheable JSON miss, the save ttl and the emitted cache-control directives all carry the chosen max-age. -/
theorem originPhase_cacheable (env : Env) (qs : String) (priv : Bool) (fk : Option String)
    (hjson : respIsJson env.originResponse = true)
    (hcache : ((!env.isMutationRequest && isResponseCachable env.originResponse) || priv) = true) :
    (originPhase env qs priv fk).2.saveCall =
      some (qs, specMaxAge env.originResponse env.defaultMaxAgeInSeconds) ∧
    outcomeHeader (originPhase env qs priv fk).1 "cache-control" =
      some ((if priv then "private" else "public") ++
        ", max-age=" ++ toString (specMaxAge env.originResponse env.defaultMaxAgeInSeconds) ++
        ", stale-while-revalidate=" ++
          toString (specMaxAge env.originResponse env.defaultMaxAgeInSeconds)) := by
  unfold originPhase
  simp only [hjson, if_true, hcache, reduceIte]
  constructor
  · cases hcc : getHeader env.originResponse.headers "cache-control" with
    | none => simp [specMaxAge, hcc, parseMaxAge_empty]
    | some v =>
      by_cases hv : v = "" <;> simp [specMaxAge, hcc, hv, parseMaxAge_empty]
  · simp only [outcomeHeader]
    rw [getHeader_set_ne _ _ _ _ (by decide), getHeader_set_self]
    cases hcc : getHeader env.originResponse.headers "cache-control" with
    | none => simp [specMaxAge, hcc, parseMaxAge_empty]
    | some v =>
      by_cases hv : v = "" <;> simp [specMaxAge, hcc, hv, parseMaxAge_empty]

/-- C7: on a store-eligible miss one value is chosen, the parseable origin
max-age when parseMaxAge yields more than -1 and the configured default TTL
otherwise, and that single value is the stored expirationTtl and the emitted
max-age and stale-while-revalidate directive values. -/
theorem store_ttl_consistency (req : Request) (env : Env)
    (hq : req.bodyQuery.getD "" ≠ "") (hp : env.parseOk = true)
    (hc : env.classifyOk = true) (hm : env.isMutationRequest = false)
    (hmiss : env.findValue = none) (hjson : respIsJson env.originResponse = true)
    (hcache : (isResponseCachable env.originResponse || env.hasPrivateTypes) = true) :
    ∃ k, (graphql req env).2.saveCall =
        some (k, specMaxAge env.originResponse env.defaultMaxAgeInSeconds) ∧
      outcomeHeader (graphql req env).1 "cache-control" =
        some ((if env.hasPrivateTypes then "private" else "public") ++
          ", max-age=" ++ toString (specMaxAge env.originResponse env.defaultMaxAgeInSeconds) ++
          ", stale-while-revalidate=" ++
            toString (specMaxAge env.originResponse env.defaultMaxAgeInSeconds)) := by
  unfold graphql
  rw [if_neg hq, if_neg (by simp [hp]), if_neg (by simp [hc])]
  simp only [hm, Bool.not_false, Bool.true_and, reduceIte, hmiss]
  have hcache2 : ((!env.isMutationRequest && isResponseCachable env.originResponse) ||
      env.hasPrivateTypes) = true := by
    rw [hm]
    simpa using hcache
  exact ⟨_, (originPhase_cacheable env _ env.hasPrivateTypes _ hjson hcache2).1,
    (originPhase_cacheable env _ env.hasPrivateTypes _ hjson hcache2).2⟩

/-- C6: on a served hit whose metadata is present, the emitted Age header
value equals the minimum of round((now - createdAt) / 1000) and the stored
expirationTtl, and therefore never exceeds the expirationTtl, for every
elapsed time. -/
theorem age_header_bound (req : Request) (env : Env) (v : CachedValue) (md : CacheMetadata)
    (hq : req.bodyQuery.getD "" ≠ "") (hp : env.parseOk = true)
    (hc : env.classifyOk = true) (hm : env.isMutationRequest = false)
    (hv : env.findValue = some v) (hmd : env.findMeta = some md) :
    outcomeHeader (graphql req env).1 "age" =
      some (toString (min (jsRoundDiv1000 (env.now - md.createdAt)) md.expirationTtl)) ∧
    min (jsRoundDiv1000 (env.now - md.createdAt)) md.expirationTtl ≤ md.expirationTtl := by
  constructor
  · unfold graphql
    rw [if_neg hq, if_neg (by simp [hp]), if_neg (by simp [hc])]
    simp only [hm, Bool.not_false, Bool.true_and, reduceIte, hv, hmd]
    simp only [outcomeHeader]
    rw [getHeader_set_ne _ _ _ _ (by decide), getHeader_set_ne _ _ _ _ (by decide),
      getHeader_set_self, ite_gt_min]
  · exact min_le_right _ _

/-- C10: when the classification phase throws, the 400 error response sets
the generic x-cache header to HIT while setting gcdn-cache to ERROR, even
though no cache lookup occurred. -/
theorem classify_error_headers (req : Request) (env : Env)
    (hq : req.bodyQuery.getD "" ≠ "") (hp : env.parseOk = true)
    (hcerr : env.classifyOk = false) :
    outcomeStatus (graphql req env).1 = some 400 ∧
    outcomeHeader (graphql req env).1 "x-cache" = some CacheHitHeader.HIT ∧
    outcomeHeader (graphql req env).1 "gcdn-cache" = some CacheHitHeader.ERROR ∧
    (graphql req env).2.findKey = none := by
  unfold graphql
  rw [if_neg hq, if_neg (by simp [hp]), if_pos hcerr]
  refine ⟨rfl, ?_, ?_, rfl⟩ <;>
  simp [outcomeHeader, mergeSpread, defaultResponseHeaders,
    getHeader_set_self, getHeader_set_ne]

/-- C5 counterexample: a request without a query field does get the 400
response, but its gcdn-cache header is absent rather than ERROR; and a
request whose query text fails to parse makes the handler throw (parse sits
outside the try block), so no 400 ERROR response is produced there
either. -/
theorem missing_query_error_counterexample :
    outcomeStatus (graphql reqNoQuery envPub).1 = some 400 ∧
    outcomeHeader (graphql reqNoQuery envPub).1 "gcdn-cache" ≠ some CacheHitHeader.ERROR ∧
    (graphql reqBad envParseErr).1 = Outcome.thrown := by
  refine ⟨rfl, by decide, rfl⟩

/-- C5 amended: a missing query field yields 400 with no cache-status
header at all; malformed query text makes parse throw outside the try
block, so the exception escapes the handler instead of producing a
response; a throw inside the classification phase yields 400 with
gcdn-cache ERROR. -/
theorem error_responses_amended :
    (∀ req env, req.bodyQuery.getD "" = "" →
      (graphql req env).1 = Outcome.response 400 [] "Request has no query field." ∧
      outcomeHeader (graphql req env).1 "gcdn-cache" = none) ∧
    (∀ req env, req.bodyQuery.getD "" ≠ "" → env.parseOk = false →
      (graphql req env).1 = Outcome.thrown) ∧
    (∀ req env, req.bodyQuery.getD "" ≠ "" → env.parseOk = true → env.classifyOk = false →
      outcomeStatus (graphql req env).1 = some 400 ∧
      outcomeHeader (graphql req env).1 "gcdn-cache" = some CacheHitHeader.ERROR) := by
  refine ⟨?_, ?_, ?_⟩
  · intro req env hq
    unfold graphql
    rw [if_pos hq]
    exact ⟨rfl, rfl⟩
  · intro req env hq hperr
    unfold graphql
    rw [if_neg hq, if_pos hperr]
  · intro req env hq hp hcerr
    unfold graphql
    rw [if_neg hq, if_neg (by simp [hp]), if_pos hcerr]
    refine ⟨rfl, ?_⟩
    simp [outcomeHeader, mergeSpread, defaultResponseHeaders,
      getHeader_set_self, getHeader_set_ne]

/-- C8: isResponseCachable, embedded from the source, equals the policy the
spec states: false on status 206, false when the Vary header contains a
star, false when Cache-Control contains no-cache or no-store
case-insensitively, and true in every other case; as a Lean function it is
side-effect free by construction. -/
theorem isResponseCachable_correct (res : OriginResponse) :
    isResponseCachable res = isCacheableSpec res := by
  unfold isResponseCachable isCacheableSpec
  cases h1 : (res.status == 206) <;>
  cases h2 : listHasSub "*".toList ((getHeader res.headers "vary").getD "").toList <;>
  cases h3 : (listHasSub "no-cache".toList
      (lowerStr ((getHeader res.headers "cache-control").getD "")).toList ||
    listHasSub "no-store".toList
      (lowerStr ((getHeader res.headers "cache-control").getD "")).toList) <;>
  simp_all

/-- Helper: a successful strip exhibits the pattern as an initial segment. -/
theorem stripPref_eq_some : ∀ (p l r : List Char), stripPref p l = some r → l = p ++ r := by
  intro p
  induction p with
  | nil =>
    intro l r h
    simp [stripPref] at h
    simp [h]
  | cons x xs ih =>
    intro l r h
    cases l with
    | nil => simp [stripPref] at h
    | cons y ys =>
      simp only [stripPref] at h
      split at h
      · rename_i heq
        have := ih ys r h
        simp [heq, this]
      · exact absurd h (by simp)

/-- Helper: stripping a pattern off itself succeeds. -/
theorem stripPref_self : ∀ (p r : List Char), stripPref p (p ++ r) = some r := by
  intro p
  induction p with
  | nil => intro r; rfl
  | cons x xs ih => intro r; simp [stripPref, ih]

/-- Helper: takeDigits splits off the maximal leading digit run. -/
theorem takeDigits_spec : ∀ (l d r : List Char), takeDigits l = (d, r) →
    l = d ++ r ∧ (∀ c ∈ d, c.isDigit = true) ∧
    (∀ c, r.head? = some c → c.isDigit = false) := by
  intro l
  induction l with
  | nil =>
    intro d r h
    simp [takeDigits] at h
    obtain ⟨h1, h2⟩ := h
    subst h1; subst h2
    simp
  | cons c cs ih =>
    intro d r h
    by_cases hd : c.isDigit
    · simp [takeDigits, hd] at h
      obtain ⟨h1, h2⟩ := h
      obtain ⟨ih1, ih2, ih3⟩ := ih (takeDigits cs).1 (takeDigits cs).2 rfl
      subst h1; subst h2
      refine ⟨by simpa using congrArg (c :: ·) ih1, ?_, ih3⟩
      intro x hx
      rcases List.mem_cons.1 hx with hx | hx
      · subst hx; exact hd
      · exact ih2 x hx
    · simp [takeDigits, hd] at h
      obtain ⟨h1, h2⟩ := h
      subst h1; subst h2
      refine ⟨rfl, by simp, ?_⟩
      intro x hx
      simp at hx
      subst hx
      simpa using hd

/-- Helper: a successful scan exhibits a match decomposition whose value the scan returns. -/
theorem scanMaxAge_some_decomp : ∀ (l : List Char) (n : Nat), scanMaxAge l = some n →
    ∃ a d r, l = a ++ maxAgePat ++ d ++ r ∧ d ≠ [] ∧ (∀ c ∈ d, c.isDigit = true) ∧
      (∀ c, r.head? = some c → c.isDigit = false) ∧ n = charsToNat d := by
  intro l
  induction l with
  | nil => intro n h; simp [scanMaxAge] at h
  | cons c cs ih =>
    intro n h
    rw [scanMaxAge] at h
    split at h
    · rename_i rest hsp
      split at h
      · rename_i d0 ds r2 htd
        simp only [Option.some.injEq] at h
        have hl := stripPref_eq_some maxAgePat (c :: cs) rest hsp
        obtain ⟨ht1, ht2, ht3⟩ := takeDigits_spec rest (d0 :: ds) r2 htd
        refine ⟨[], d0 :: ds, r2, ?_, by simp, ht2, ht3, h.symm⟩
        rw [hl, ht1]
        simp
      · rename_i r2 htd
        obtain ⟨a, d, r, ha, hd, hdig, hr, hn⟩ := ih n h
        exact ⟨c :: a, d, r, by simp [ha], hd, hdig, hr, hn⟩
    · rename_i hsp
      obtain ⟨a, d, r, ha, hd, hdig, hr, hn⟩ := ih n h
      exact ⟨c :: a, d, r, by simp [ha], hd, hdig, hr, hn⟩

/-- Helper: when a match exists somewhere in the list, the scan succeeds. -/
theorem scanMaxAge_complete : ∀ (l a r : List Char) (c : Char),
    l = a ++ maxAgePat ++ c :: r → c.isDigit = true → (scanMaxAge l).isSome = true := by
  intro l
  induction l with
  | nil =>
    intro a r c h hc
    exfalso
    cases a <;> simp [maxAgePat] at h
  | cons x xs ih =>
    intro a r c h hc
    cases a with
    | nil =>
      simp only [List.nil_append] at h
      rw [h]
      have h1 : stripPref maxAgePat (maxAgePat ++ c :: r) = some (c :: r) := stripPref_self _ _
      have h2 : takeDigits (c :: r) = (c :: (takeDigits r).1, (takeDigits r).2) := by
        simp [takeDigits, hc]
      have hpat : maxAgePat ++ c :: r = 'm' :: ("ax-age=".toList ++ c :: r) := by
        rfl
      rw [hpat]
      rw [scanMaxAge]
      rw [hpat] at h1
      rw [h1]
      simp [h2]
    | cons a0 as =>
      simp only [List.cons_append, List.cons.injEq] at h
      obtain ⟨hx, hxs⟩ := h
      rw [scanMaxAge]
      split
      · rename_i rest hsp
        split
        · simp
        · exact ih as r c hxs hc
      · exact ih as r c hxs hc

/-- C9: parseMaxAge returns the sentinel -1 exactly when the input has no
occurrence of max-age= followed by a digit, and on a match returns the
decimal value of the maximal digit run following such an occurrence; being
a total Lean function, it cannot throw on any input. -/
theorem parseMaxAge_spec (s : String) :
    (¬ maxAgeMatchP s → parseMaxAge s = -1) ∧
    (maxAgeMatchP s → ∃ a d r, s.toList = a ++ maxAgePat ++ d ++ r ∧ d ≠ [] ∧
      (∀ c ∈ d, c.isDigit = true) ∧ (∀ c, r.head? = some c → c.isDigit = false) ∧
      parseMaxAge s = (charsToNat d : Int)) := by
  constructor
  · intro hn
    unfold parseMaxAge
    cases hscan : scanMaxAge s.toList with
    | none => rfl
    | some n =>
      exfalso
      obtain ⟨a, d, r, ha, hd, hdig, hr, _⟩ := scanMaxAge_some_decomp _ _ hscan
      cases d with
      | nil => exact hd rfl
      | cons d0 ds =>
        exact hn ⟨a, d0, ds ++ r, by simpa using ha, hdig d0 (by simp)⟩
  · intro hm
    obtain ⟨a, c, r, ha, hc⟩ := hm
    have hsome := scanMaxAge_complete s.toList a r c ha hc
    cases hscan : scanMaxAge s.toList with
    | none => rw [hscan] at hsome; simp at hsome
    | some n =>
      obtain ⟨a2, d2, r2, ha2, hd2, hdig2, hr2, hn2⟩ := scanMaxAge_some_decomp _ _ hscan
      refine ⟨a2, d2, r2, ha2, hd2, hdig2, hr2, ?_⟩
      unfold parseMaxAge
      rw [hscan, hn2]

/-- Witness for C1: a concrete public miss with a JSON origin response is stored. -/
theorem cache_store_decision_witness :
    (graphql reqPub envPub).2.saveCall.isSome = true := by
  have h := (cache_store_decision reqPub envPub (by decide) rfl rfl rfl rfl).1 rfl
  rw [h]
  rfl

/-- Witness for C2: a concrete private request derives the identity-salted key. -/
theorem query_signature_derivation_witness :
    (graphql reqPrivA envPriv).2.findKey = some (hash0 ("tokA" ++ "{me}")) := by
  have h := (query_signature_derivation reqPrivA envPriv (by decide) rfl rfl).1 rfl
  rw [h.1]
  rfl

/-- Witness for C3: two concrete identities derive distinct signatures. -/
theorem privacy_isolation_witness :
    (graphql reqPrivA envPriv).2.findKey ≠ (graphql reqPrivB envPriv).2.findKey :=
  (privacy_isolation reqPrivA reqPrivB envPriv envPriv
    (by decide) rfl rfl rfl rfl
    (by decide) rfl rfl rfl rfl
    rfl rfl (by decide) (by decide)).2.2.1

/-- Witness for C4: a concrete mutation performs no store calls and gets PASS. -/
theorem mutation_passthrough_witness :
    (graphql reqMut envMut).2.findKey = none ∧
    (graphql reqMut envMut).2.saveCall = none ∧
    outcomeHeader (graphql reqMut envMut).1 "gcdn-cache" = some CacheHitHeader.PASS :=
  mutation_passthrough reqMut envMut (by decide) rfl rfl rfl

/-- Witness for C5 amended, at concrete requests for each of its three clauses. -/
theorem error_responses_amended_witness :
    (graphql reqNoQuery envPub).1 =
      Outcome.response 400 [] "Request has no query field." ∧
    (graphql reqBad envParseErr).1 = Outcome.thrown ∧
    outcomeHeader (graphql reqPub envClassErr).1 "gcdn-cache" = some CacheHitHeader.ERROR :=
  ⟨(error_responses_amended.1 reqNoQuery envPub rfl).1,
   error_responses_amended.2.1 reqBad envParseErr (by decide) rfl,
   (error_responses_amended.2.2 reqPub envClassErr (by decide) rfl rfl).2⟩

/-- Witness for C6: a concrete hit five seconds after storage with ttl sixty. -/
theorem age_header_bound_witness :
    outcomeHeader (graphql reqPub envHit).1 "age" =
      some (toString (min (jsRoundDiv1000 (envHit.now - (0 : Int))) (60 : Int))) ∧
    min (jsRoundDiv1000 (envHit.now - (0 : Int))) (60 : Int) ≤ (60 : Int) :=
  age_header_bound reqPub envHit ⟨"{cached}", [("content-type", "application/json")]⟩
    ⟨0, 60⟩ (by decide) rfl rfl rfl rfl rfl

/-- Witness for C7: a concrete origin max-age of 120 is used for ttl and directives. -/
theorem store_ttl_consistency_witness :
    ∃ k, (graphql reqPub envMaxAge).2.saveCall =
        some (k, specMaxAge envMaxAge.originResponse envMaxAge.defaultMaxAgeInSeconds) ∧
      outcomeHeader (graphql reqPub envMaxAge).1 "cache-control" =
        some ((if envMaxAge.hasPrivateTypes then "private" else "public") ++
          ", max-age=" ++
            toString (specMaxAge envMaxAge.originResponse envMaxAge.defaultMaxAgeInSeconds) ++
          ", stale-while-revalidate=" ++
            toString (specMaxAge envMaxAge.originResponse envMaxAge.defaultMaxAgeInSeconds)) :=
  store_ttl_consistency reqPub envMaxAge (by decide) rfl rfl rfl rfl (by decide) (by decide)

/-- Witness for C9, on a matching and on a non-matching input. -/
theorem parseMaxAge_spec_witness :
    parseMaxAge "no directive" = -1 ∧ maxAgeMatchP "max-age=60" ∧
    (∃ a d r, ("max-age=60").toList = a ++ maxAgePat ++ d ++ r ∧ d ≠ [] ∧
      (∀ c ∈ d, c.isDigit = true) ∧ (∀ c, r.head? = some c → c.isDigit = false) ∧
      parseMaxAge "max-age=60" = (charsToNat d : Int)) := by
  have hmatch : maxAgeMatchP "max-age=60" := ⟨[], '6', ['0'], by decide, by decide⟩
  have hno : ¬ maxAgeMatchP "no directive" := by
    intro hmm
    obtain ⟨a, c, r, h, hc⟩ := hmm
    have hsome := scanMaxAge_complete ("no directive").toList a r c h hc
    have hnone : scanMaxAge ("no directive").toList = none := by decide
    rw [hnone] at hsome
    simp at hsome
  exact ⟨(parseMaxAge_spec "no directive").1 hno, hmatch,
    (parseMaxAge_spec "max-age=60").2 hmatch⟩

/-- Witness for C10 at a concrete classification failure. -/
theorem classify_error_headers_witness :
    outcomeStatus (graphql reqPub envClassErr).1 = some 400 ∧
    outcomeHeader (graphql reqPub envClassErr).1 "x-cache" = some CacheHitHeader.HIT ∧
    outcomeHeader (graphql reqPub envClassErr).1 "gcdn-cache" = some CacheHitHeader.ERROR ∧
    (graphql reqPub envClassErr).2.findKey = none :=
  classify_error_headers reqPub envClassErr (by decide) rfl rfl
